import Mathlib

/-!
Shallow embedding of the pngme chunk codec (src/chunk_type.rs and
src/chunk.rs).  Bytes are modelled as `Nat` values (a real `u8` is
always `< 256`); 32-bit integers are `Nat` with explicit `% 2^32`
truncation wherever the Rust code casts; fallible Rust functions
return an `Outcome`, whose `panicked` constructor records a Rust
panic (slice indexing out of bounds, `unwrap`/`expect` on an error).
-/

set_option maxRecDepth 100000

/-- Result of running a fallible Rust function: `ok` models `Ok`,
`err` models an ordinary `Err` return, and `panicked` models a Rust
panic (index out of bounds, `unwrap` on `Err`, `expect` failure). -/
inductive Outcome (α : Type) where
  | ok (val : α)
  | err (msg : String)
  | panicked (msg : String)
deriving DecidableEq, Repr

/-- `Outcome.isOk o` is true exactly when `o` is an `ok`. -/
def Outcome.isOk {α : Type} : Outcome α → Bool
  | .ok _ => true
  | _ => false

/-- The `ChunkType` struct of src/chunk_type.rs: four public byte fields. -/
structure ChunkType where
  ancillary_byte : Nat
  private_byte : Nat
  reserved_byte : Nat
  safe_to_copy_byte : Nat
deriving DecidableEq, Repr

/-- The byte test shared by `ChunkType::try_from` and
`ChunkType::from_str`: a byte is rejected iff `i < 65`, `i > 122`, or
`90 < i < 97` — i.e. accepted iff it is an ASCII letter. -/
def isBadTagByte (i : Nat) : Bool := i < 65 || 122 < i || (90 < i && i < 97)

/-- `ChunkType::bytes`: the four field bytes in order. -/
def ChunkType.bytes (ct : ChunkType) : List Nat :=
  [ct.ancillary_byte, ct.private_byte, ct.reserved_byte, ct.safe_to_copy_byte]

/-- `ChunkType::is_reserved_bit_valid`: bit 5 (value 32) of the third byte is clear. -/
def ChunkType.is_reserved_bit_valid (ct : ChunkType) : Bool :=
  ct.reserved_byte &&& 32 == 0

/-- `ChunkType::is_valid`: returns `false` when `is_reserved_bit_valid`
is false, otherwise `true` (verbatim from the source's early return). -/
def ChunkType.is_valid (ct : ChunkType) : Bool :=
  if !ct.is_reserved_bit_valid then false else true

/-- `ChunkType::is_critical`: bit 5 of the first byte is clear. -/
def ChunkType.is_critical (ct : ChunkType) : Bool :=
  ct.ancillary_byte &&& 32 == 0

/-- `ChunkType::is_public`: bit 5 of the second byte is clear. -/
def ChunkType.is_public (ct : ChunkType) : Bool :=
  ct.private_byte &&& 32 == 0

/-- `ChunkType::is_safe_to_copy`: bit 5 of the fourth byte is set. -/
def ChunkType.is_safe_to_copy (ct : ChunkType) : Bool :=
  ct.safe_to_copy_byte &&& 32 != 0

/-- `ChunkType::try_from(value: [u8; 4])`: scan the four bytes in order
and return an error at the first byte that is not an ASCII letter,
otherwise build the struct from the four bytes.  The argument is the
4-element list of the array's bytes (every call site passes exactly
four bytes; other lengths cannot arise from a `[u8; 4]`). -/
def ChunkType.tryFromList (value : List Nat) : Outcome ChunkType :=
  if value.any isBadTagByte then
    .err "Error! The value array cannot be parsed as letters."
  else
    match value with
    | [a, b, c, d] => .ok ⟨a, b, c, d⟩
    | _ => .err "Error! The value array cannot be parsed as letters."

/-- `ChunkType::from_str(s: &str)`, with the string given by its UTF-8
bytes: scan all bytes and return an error at the first byte that is
not an ASCII letter; then index bytes 0..3 without any length check —
a panic when fewer than 4 bytes remain, and silent truncation to the
first 4 bytes when more remain. -/
def ChunkType.fromStr (s : List Nat) : Outcome ChunkType :=
  if s.any isBadTagByte then
    .err "Error! The str cannot be parsed as letters."
  else
    match s with
    | a :: b :: c :: d :: _ => .ok ⟨a, b, c, d⟩
    | _ => .panicked "index out of bounds"

/-- One bit step of the reflected CRC-32: shift right, conditionally
xor the reflected polynomial 0xEDB88320. -/
def crc32Round (c : Nat) : Nat :=
  if c % 2 = 1 then (c / 2) ^^^ 0xEDB88320 else c / 2

/-- Iterate `crc32Round` `n` times. -/
def crc32Bits : Nat → Nat → Nat
  | 0, c => c
  | n + 1, c => crc32Bits n (crc32Round c)

/-- Feed one byte into the running CRC-32 state. -/
def crc32UpdateByte (c b : Nat) : Nat := crc32Bits 8 (c ^^^ b)

/-- `Crc::<u32>::new(&CRC_32_ISO_HDLC).checksum(data)`: the CRC-32/ISO-HDLC
checksum (reflected, init `0xFFFFFFFF`, final xor `0xFFFFFFFF`) of a byte
sequence — the algorithm used by PNG, zlib and gzip. -/
def crc32 (data : List Nat) : Nat :=
  (data.foldl crc32UpdateByte 0xFFFFFFFF) ^^^ 0xFFFFFFFF

/-- Big-endian interpretation of a byte list as an unsigned integer
(`u32::from_be_bytes` / `transmute` + `to_be` on the 4-byte arrays the
code uses; each byte is a `u8`, i.e. taken mod 256). -/
def be32 (l : List Nat) : Nat := l.foldl (fun a b => a * 256 + b % 256) 0

/-- Big-endian 4-byte encoding of a `u32`
(`transmute::<u32, [u8; 4]>(x.to_be)` on a little-endian host). -/
def be32Encode (x : Nat) : List Nat :=
  [x / 2 ^ 24 % 256, x / 2 ^ 16 % 256, x / 2 ^ 8 % 256, x % 256]

/-- The `Chunk` struct of src/chunk.rs. -/
structure Chunk where
  length : Nat
  chunk_type : ChunkType
  chunk_data : List Nat
  crc : Nat
deriving DecidableEq, Repr

/-- `Chunk::new(chunk_type, data)`: total constructor; pushes the four
tag bytes then the payload into a scratch vector, computes the CRC over
it, and stores `length = data.len() as u32`. -/
def Chunk.new (chunk_type : ChunkType) (data : List Nat) : Chunk :=
  { length := data.length % 2 ^ 32
    chunk_type := chunk_type
    chunk_data := data
    crc := crc32 (chunk_type.bytes ++ data) }

/-- `Chunk::as_bytes`: big-endian length, the four tag bytes, the
payload verbatim, then the big-endian CRC. -/
def Chunk.as_bytes (c : Chunk) : List Nat :=
  be32Encode c.length ++ c.chunk_type.bytes ++ c.chunk_data ++ be32Encode c.crc

/-- `Chunk::try_from(value: &[u8])`, step for step:
slicing `value[0..=3]` and `value[4..=7]` panics when fewer than 8
bytes are present; the stored CRC is read from the last 4 bytes of the
buffer; four `pop`s and four `remove`s trim the buffer to
`value[4 .. len-4]`; `ChunkType::try_from(..).unwrap()` panics on an
illegal tag; a CRC mismatch over the trimmed buffer returns
`Err("crc error.")`; on a match, four more `remove`s (a panic when the
trimmed buffer is shorter than 4) drop the tag bytes, and the chunk is
built with `length = remaining.len() as u32`.  The declared 4-byte
length field is read into a local array but never used. -/
def Chunk.tryFromBytes (value : List Nat) : Outcome Chunk :=
  if value.length < 8 then .panicked "index out of bounds"
  else
    match ChunkType.tryFromList ((value.drop 4).take 4) with
    | .err _ => .panicked "called Result-unwrap on an Err value"
    | .panicked m => .panicked m
    | .ok ct =>
      if crc32 ((value.take (value.length - 4)).drop 4) ≠
          be32 (value.drop (value.length - 4)) then .err "crc error."
      else if ((value.take (value.length - 4)).drop 4).length < 4 then
        .panicked "removal index out of bounds"
      else
        .ok { length := (((value.take (value.length - 4)).drop 4).drop 4).length % 2 ^ 32
              chunk_type := ct
              chunk_data := ((value.take (value.length - 4)).drop 4).drop 4
              crc := be32 (value.drop (value.length - 4)) }

/-- `Chunk::crc_checksum(chunk_type, data)`: CRC over tag bytes then payload. -/
def Chunk.crc_checksum (ct : ChunkType) (data : List Nat) : Nat :=
  crc32 (ct.bytes ++ data)

/-- `Chunk::read_chunk(reader)`: sequential reads from a byte stream —
4 length bytes, 4 tag bytes (`try_into` propagates the tag error with
`?`), `length` payload bytes, 4 CRC bytes; `read_exact` yields an
ordinary error when the stream is too short; a CRC mismatch yields
`Err("invalid chunk")`.  The unread remainder of the stream is
returned next to the chunk. -/
def Chunk.read_chunk (input : List Nat) : Outcome (Chunk × List Nat) :=
  if input.length < 4 then .err "failed to fill whole buffer"
  else
    let length := be32 (input.take 4)
    let r1 := input.drop 4
    if r1.length < 4 then .err "failed to fill whole buffer"
    else
      match ChunkType.tryFromList (r1.take 4) with
      | .err e => .err e
      | .panicked m => .panicked m
      | .ok ct =>
        let r2 := r1.drop 4
        if r2.length < length then .err "failed to fill whole buffer"
        else
          let chunk_data := r2.take length
          let r3 := r2.drop length
          if r3.length < 4 then .err "failed to fill whole buffer"
          else
            let crc := be32 (r3.take 4)
            if crc ≠ Chunk.crc_checksum ct chunk_data then .err "invalid chunk"
            else .ok (⟨length, ct, chunk_data, crc⟩, r3.drop 4)

/-- UTF-8 validity of a byte sequence, per RFC 3629 exactly as
`String::from_utf8` checks it: well-formed multi-byte sequences, no
overlong encodings, no surrogates, nothing above U+10FFFF. -/
def utf8Valid : List Nat → Bool
  | [] => true
  | b :: rest =>
    if b < 0x80 then utf8Valid rest
    else if b < 0xC2 then false
    else if b < 0xE0 then
      match rest with
      | c1 :: r => 0x80 ≤ c1 && c1 < 0xC0 && utf8Valid r
      | [] => false
    else if b < 0xF0 then
      match rest with
      | c1 :: c2 :: r =>
        (if b = 0xE0 then 0xA0 ≤ c1 && c1 < 0xC0
         else if b = 0xED then 0x80 ≤ c1 && c1 < 0xA0
         else 0x80 ≤ c1 && c1 < 0xC0) &&
        (0x80 ≤ c2 && c2 < 0xC0) && utf8Valid r
      | _ => false
    else if b < 0xF5 then
      match rest with
      | c1 :: c2 :: c3 :: r =>
        (if b = 0xF0 then 0x90 ≤ c1 && c1 < 0xC0
         else if b = 0xF4 then 0x80 ≤ c1 && c1 < 0x90
         else 0x80 ≤ c1 && c1 < 0xC0) &&
        (0x80 ≤ c2 && c2 < 0xC0) && (0x80 ≤ c3 && c3 < 0xC0) && utf8Valid r
      | _ => false
    else false

/-- `Chunk::data_as_string`: `String::from_utf8(payload).expect(..)` —
the decoded string (whose UTF-8 bytes are exactly the payload) wrapped
in `Ok` when the payload is valid UTF-8, and a panic otherwise. -/
def Chunk.data_as_string (c : Chunk) : Outcome (List Nat) :=
  if utf8Valid c.chunk_data then .ok c.chunk_data
  else .panicked "Found invalid UTF-8"

/-- The tag "RuSt" as a `ChunkType` (bytes 82, 117, 83, 116). -/
def ctRuSt : ChunkType := ⟨82, 117, 83, 116⟩

/-- The 42 UTF-8 bytes of "This is where your secret message will be!". -/
def msgBytes : List Nat :=
  [84, 104, 105, 115, 32, 105, 115, 32, 119, 104, 101, 114, 101, 32, 121,
   111, 117, 114, 32, 115, 101, 99, 114, 101, 116, 32, 109, 101, 115, 115,
   97, 103, 101, 32, 119, 105, 108, 108, 32, 98, 101, 33]

/-- The serialized record with tag "RuSt" and empty payload:
length 0, tag bytes, CRC over the tag alone — 12 bytes in total. -/
def recRuStEmpty : List Nat :=
  [0, 0, 0, 0, 82, 117, 83, 116] ++ be32Encode (crc32 [82, 117, 83, 116])

/-- A 13-byte buffer whose declared length field (9) disagrees with the
framed payload size (1), whose stored checksum matches the checksum of
tag ++ framed payload, but whose tag "Ru1t" contains a non-letter. -/
def lengthLiesBadTagBuf : List Nat :=
  [0, 0, 0, 9] ++ [82, 117, 49, 116] ++ [7] ++ be32Encode (crc32 [82, 117, 49, 116, 7])

/-- A 13-byte buffer with legal tag "RuSt", garbage declared length
field (0x09090909 ≠ 1), one framed payload byte, and a matching
stored checksum. -/
def lengthLiesLegalTagBuf : List Nat :=
  [9, 9, 9, 9] ++ [82, 117, 83, 116] ++ [7] ++ be32Encode (crc32 [82, 117, 83, 116, 7])

/-- Boolean legality of a whole tag: no field byte fails the letter test. -/
def legalTag (ct : ChunkType) : Bool := !(ct.bytes.any isBadTagByte)

lemma isBadTagByte_false_lt {b : Nat} (h : isBadTagByte b = false) : b < 256 := by
  simp [isBadTagByte] at h
  omega

lemma crc32Round_lt {c : Nat} (h : c < 2 ^ 32) : crc32Round c < 2 ^ 32 := by
  unfold crc32Round
  split
  · exact Nat.xor_lt_two_pow (by omega) (by norm_num)
  · omega

lemma crc32Bits_lt (n : Nat) {c : Nat} (h : c < 2 ^ 32) : crc32Bits n c < 2 ^ 32 := by
  induction n generalizing c with
  | zero => exact h
  | succ n ih => exact ih (crc32Round_lt h)

lemma crc32UpdateByte_lt {c b : Nat} (hc : c < 2 ^ 32) (hb : b < 256) :
    crc32UpdateByte c b < 2 ^ 32 :=
  crc32Bits_lt 8 (Nat.xor_lt_two_pow hc (by omega))

lemma crc32_foldl_lt (l : List Nat) {c : Nat} (hc : c < 2 ^ 32)
    (hl : ∀ b ∈ l, b < 256) : l.foldl crc32UpdateByte c < 2 ^ 32 := by
  induction l generalizing c with
  | nil => exact hc
  | cons x xs ih =>
    exact ih (crc32UpdateByte_lt hc (hl x (by simp))) (fun b hb => hl b (by simp [hb]))

lemma crc32_lt (l : List Nat) (hl : ∀ b ∈ l, b < 256) : crc32 l < 2 ^ 32 :=
  Nat.xor_lt_two_pow (crc32_foldl_lt l (by norm_num) hl) (by norm_num)

lemma be32_be32Encode {x : Nat} (h : x < 2 ^ 32) : be32 (be32Encode x) = x := by
  simp only [be32, be32Encode, List.foldl]
  omega

lemma tryFromList_bytes (ct : ChunkType) (h : legalTag ct = true) :
    ChunkType.tryFromList ct.bytes = .ok ct := by
  simp only [legalTag, Bool.not_eq_true', ChunkType.bytes] at h
  simp [ChunkType.tryFromList, ChunkType.bytes, h]

lemma tryFromList_ok {l : List Nat} {ct : ChunkType}
    (h : ChunkType.tryFromList l = .ok ct) :
    l = ct.bytes ∧ l.any isBadTagByte = false := by
  unfold ChunkType.tryFromList at h
  split at h
  · exact absurd h (by simp)
  · next hany =>
    split at h
    · next a b c d => cases h; exact ⟨rfl, by simpa using hany⟩
    · exact absurd h (by simp)

lemma length_eq_four {α : Type} {l : List α} (h : l.length = 4) :
    ∃ a b c d, l = [a, b, c, d] := by
  rcases l with _ | ⟨a, _ | ⟨b, _ | ⟨c, _ | ⟨d, _ | ⟨e, t⟩⟩⟩⟩⟩ <;> simp_all

/-- C3: `ChunkType::from_str` performs no length check.  A 5-letter
string is accepted and silently truncated to its first 4 bytes; a
2-letter string makes the indexing `s[2]` panic instead of returning a
length error; a 4-byte string with a non-letter byte ("Ru1t") is the
only rejected shape, with the byte error. -/
theorem fromStr_no_length_check :
    ChunkType.fromStr [65, 66, 67, 68, 69] = .ok ⟨65, 66, 67, 68⟩ ∧
    ChunkType.fromStr [65, 66] = .panicked "index out of bounds" ∧
    ChunkType.fromStr [82, 117, 49, 116] =
      .err "Error! The str cannot be parsed as letters." := by
  refine ⟨?_, ?_, ?_⟩ <;> decide

/-- C4: `Chunk::try_from` never returns a truncation error.  A 5-byte
buffer makes the slice `value[4..=7]` panic, the empty buffer makes
`value[0..=3]` panic, and a 12-byte buffer whose declared length field
(5) exceeds the actual remaining bytes parses successfully anyway,
because the declared length is never consulted. -/
theorem tryFromBytes_truncation_panics :
    Chunk.tryFromBytes [0, 0, 0, 0, 0] = .panicked "index out of bounds" ∧
    Chunk.tryFromBytes [] = .panicked "index out of bounds" ∧
    Chunk.tryFromBytes ([0, 0, 0, 5, 82, 117, 83, 116] ++ be32Encode (crc32 [82, 117, 83, 116])) =
      .ok ⟨0, ctRuSt, [], crc32 [82, 117, 83, 116]⟩ := by
  refine ⟨by decide, by decide, by decide⟩

/-- C5: on a 12-byte buffer whose 4 tag bytes contain the non-letter
byte 49 ("Ru1t"), `Chunk::try_from` panics at
`ChunkType::try_from(chunk_type).unwrap()` instead of returning an
InvalidTag error value. -/
theorem tryFromBytes_illegal_tag_panics :
    Chunk.tryFromBytes [0, 0, 0, 0, 82, 117, 49, 116, 0, 0, 0, 0] =
      .panicked "called Result-unwrap on an Err value" := by
  decide

/-- C6: on a buffer holding two valid back-to-back records,
`Chunk::try_from` fails with the checksum error `"crc error."` (it
reads the stored CRC from the last 4 bytes of the whole buffer; no
TrailingBytes error exists in the code), while `Chunk::read_chunk`
applied twice on the same bytes succeeds both times, returning the two
records without the stream being exhausted after the first. -/
theorem two_records_crc_error_and_stream_reads :
    Chunk.tryFromBytes (recRuStEmpty ++ recRuStEmpty) = .err "crc error." ∧
    Chunk.read_chunk (recRuStEmpty ++ recRuStEmpty) =
      .ok (⟨0, ctRuSt, [], crc32 [82, 117, 83, 116]⟩, recRuStEmpty) ∧
    Chunk.read_chunk recRuStEmpty =
      .ok (⟨0, ctRuSt, [], crc32 [82, 117, 83, 116]⟩, []) := by
  refine ⟨by decide, by decide, by decide⟩

/-- C7: `Chunk::data_as_string` panics via
`String::from_utf8(..).expect("Found invalid UTF-8")` on a payload
that is not valid UTF-8 (here the single byte 0xFF), instead of
returning an InvalidEncoding error value; on a valid-UTF-8 payload it
returns the decoded text. -/
theorem data_as_string_panics_on_invalid_utf8 :
    (Chunk.new ctRuSt [255]).data_as_string = .panicked "Found invalid UTF-8" ∧
    (Chunk.new ctRuSt [104, 105]).data_as_string = .ok [104, 105] := by
  refine ⟨by decide, by decide⟩

/-- C8 counterexample: the record built from tag "RuSt" and the
42-byte secret message does not have length 44 as the claim states. -/
theorem rust_scenario_length_not_44 :
    ¬ (Chunk.new ctRuSt msgBytes).length = 44 := by
  decide

/-- C8 amended: the record built from tag "RuSt" and the 42-byte
payload "This is where your secret message will be!" has length 42;
the tag reports critical, not public, reserved bit valid and safe to
copy; and the computed CRC-32/ISO-HDLC over tag ++ payload equals
2882656334, the value an independent reference CRC-32 implementation
gives for these bytes. -/
theorem rust_scenario_amended :
    (Chunk.new ctRuSt msgBytes).length = 42 ∧
    ctRuSt.is_critical = true ∧
    ctRuSt.is_public = false ∧
    ctRuSt.is_reserved_bit_valid = true ∧
    ctRuSt.is_safe_to_copy = true ∧
    (Chunk.new ctRuSt msgBytes).crc = 2882656334 := by
  refine ⟨by decide, by decide, by decide, by decide, by decide, by decide⟩

/-- C9: `is_valid` returns exactly `is_reserved_bit_valid` on every
tag value; the tag "Rust" (third byte lowercase, bit 0x20 set) is
constructible by both `from_str` and `try_from` yet reports
`is_valid = false`, while "RuSt" (that bit clear) reports
`is_valid = true`. -/
theorem is_valid_iff_reserved_bit :
    (∀ ct : ChunkType, ct.is_valid = ct.is_reserved_bit_valid) ∧
    ChunkType.fromStr [82, 117, 115, 116] = .ok ⟨82, 117, 115, 116⟩ ∧
    ChunkType.tryFromList [82, 117, 115, 116] = .ok ⟨82, 117, 115, 116⟩ ∧
    (⟨82, 117, 115, 116⟩ : ChunkType).is_valid = false ∧
    ChunkType.fromStr [82, 117, 83, 116] = .ok ⟨82, 117, 83, 116⟩ ∧
    (⟨82, 117, 83, 116⟩ : ChunkType).is_valid = true := by
  refine ⟨?_, by decide, by decide, by decide, by decide, by decide⟩
  intro ct
  unfold ChunkType.is_valid
  cases h : ct.is_reserved_bit_valid <;> simp [h]

lemma take_sub4_append (xs c4 : List Nat) (hc : c4.length = 4) :
    (xs ++ c4).take ((xs ++ c4).length - 4) = xs := by
  have h : (xs ++ c4).length - 4 = xs.length := by simp [hc]
  rw [h, List.take_left]

lemma drop_sub4_append (xs c4 : List Nat) (hc : c4.length = 4) :
    (xs ++ c4).drop ((xs ++ c4).length - 4) = c4 := by
  have h : (xs ++ c4).length - 4 = xs.length := by simp [hc]
  rw [h, List.drop_left]

lemma tryFromBytes_append (t : ChunkType) (p l4 c4 : List Nat)
    (hl : l4.length = 4) (hc : c4.length = 4) (ht : legalTag t = true) :
    Chunk.tryFromBytes (l4 ++ (t.bytes ++ (p ++ c4))) =
      if crc32 (t.bytes ++ p) ≠ be32 c4 then .err "crc error."
      else .ok ⟨p.length % 2 ^ 32, t, p, be32 c4⟩ := by
  have hT : t.bytes.length = 4 := by simp [ChunkType.bytes]
  have hassoc : l4 ++ (t.bytes ++ (p ++ c4)) = (l4 ++ (t.bytes ++ p)) ++ c4 := by
    simp
  rw [hassoc]
  have h8 : ¬ ((l4 ++ (t.bytes ++ p)) ++ c4).length < 8 := by
    simp only [List.length_append, hl, hT, hc]
    omega
  have e1 : ((l4 ++ (t.bytes ++ p)) ++ c4).drop 4 = (t.bytes ++ p) ++ c4 := by
    rw [List.append_assoc]
    exact List.drop_left' hl
  have e2 : ((t.bytes ++ p) ++ c4).take 4 = t.bytes := by
    rw [List.append_assoc]
    exact List.take_left' hT
  have e3 : ((l4 ++ (t.bytes ++ p)) ++ c4).take
      (((l4 ++ (t.bytes ++ p)) ++ c4).length - 4) = l4 ++ (t.bytes ++ p) :=
    take_sub4_append _ _ hc
  have e5 : ((l4 ++ (t.bytes ++ p)) ++ c4).drop
      (((l4 ++ (t.bytes ++ p)) ++ c4).length - 4) = c4 :=
    drop_sub4_append _ _ hc
  have e4 : (l4 ++ (t.bytes ++ p)).drop 4 = t.bytes ++ p := List.drop_left' hl
  have h4 : ¬ (t.bytes ++ p).length < 4 := by simp [hT]
  have e6 : (t.bytes ++ p).drop 4 = p := List.drop_left' hT
  simp only [Chunk.tryFromBytes, if_neg h8, e1, e2, tryFromList_bytes t ht,
    e3, e4, e5, if_neg h4, e6]

/-- C1: the round-trip law. For every tag whose four bytes are ASCII
letters and every payload of bytes, parsing (`Chunk::try_from`) the
serialization (`Chunk::as_bytes`) of the record built by `Chunk::new`
succeeds and returns a record equal to the built one in every field. -/
theorem parse_roundtrip_build (t : ChunkType) (p : List Nat)
    (ht : legalTag t = true) (hp : ∀ b ∈ p, b < 256) :
    Chunk.tryFromBytes (Chunk.new t p).as_bytes = .ok (Chunk.new t p) := by
  have hT256 : ∀ b ∈ t.bytes, b < 256 := by
    intro b hb
    have hbad : isBadTagByte b = false := by
      simp only [legalTag, Bool.not_eq_true'] at ht
      simpa using List.any_eq_false.mp ht b hb
    exact isBadTagByte_false_lt hbad
  have hcrcLt : crc32 (t.bytes ++ p) < 2 ^ 32 := by
    refine crc32_lt _ (fun b hb => ?_)
    rcases List.mem_append.mp hb with h | h
    · exact hT256 b h
    · exact hp b h
  have hbytes : (Chunk.new t p).as_bytes =
      be32Encode (p.length % 2 ^ 32) ++
        (t.bytes ++ (p ++ be32Encode (crc32 (t.bytes ++ p)))) := by
    simp [Chunk.new, Chunk.as_bytes]
  rw [hbytes,
    tryFromBytes_append t p _ _ (by simp [be32Encode]) (by simp [be32Encode]) ht,
    be32_be32Encode hcrcLt, if_neg (fun hne => hne rfl)]
  rfl

/-- C1 witness: the round-trip law at the concrete tag "RuSt" and
payload `[1, 2, 3]`. -/
theorem parse_roundtrip_build_witness :
    Chunk.tryFromBytes (Chunk.new ctRuSt [1, 2, 3]).as_bytes =
      .ok (Chunk.new ctRuSt [1, 2, 3]) :=
  parse_roundtrip_build ctRuSt [1, 2, 3] (by decide) (by decide)

/-- C2: every constructor of a `Chunk` establishes the invariant that
the stored CRC equals the CRC-32/ISO-HDLC of tag bytes ++ payload and
that the length field equals the payload length (`as u32`, hence the
`% 2^32` for `Chunk::new` and `Chunk::try_from`; `Chunk::read_chunk`
stores the declared 32-bit length, which equals the payload length
exactly).  `Chunk::new` is a total function, so building always
succeeds. -/
theorem record_checksum_length_invariant :
    (∀ (ct : ChunkType) (data : List Nat),
      (Chunk.new ct data).crc = crc32 (ct.bytes ++ data) ∧
      (Chunk.new ct data).length = data.length % 2 ^ 32) ∧
    (∀ (v : List Nat) (c : Chunk), Chunk.tryFromBytes v = .ok c →
      c.crc = crc32 (c.chunk_type.bytes ++ c.chunk_data) ∧
      c.length = c.chunk_data.length % 2 ^ 32) ∧
    (∀ (s : List Nat) (c : Chunk) (rest : List Nat),
      Chunk.read_chunk s = .ok (c, rest) →
      c.crc = crc32 (c.chunk_type.bytes ++ c.chunk_data) ∧
      c.length = c.chunk_data.length) := by
  refine ⟨fun ct data => ⟨rfl, rfl⟩, ?_, ?_⟩
  · intro v c h
    unfold Chunk.tryFromBytes at h
    split at h
    · exact absurd h (by simp)
    · next h8 =>
      split at h
      · exact absurd h (by simp)
      · exact absurd h (by simp)
      · next ct hct =>
        split at h
        · exact absurd h (by simp)
        · next hcrc =>
          split at h
          · exact absurd h (by simp)
          · next h4 =>
            have hceq : crc32 ((v.take (v.length - 4)).drop 4) =
                be32 (v.drop (v.length - 4)) := not_not.mp hcrc
            have hbytes := (tryFromList_ok hct).1
            have htr : (v.take (v.length - 4)).drop 4 =
                (v.drop 4).take (v.length - 4 - 4) := List.drop_take _ _ _
            have hlen : ((v.take (v.length - 4)).drop 4).length = v.length - 8 := by
              simp only [List.length_drop, List.length_take]
              omega
            have h12 : 12 ≤ v.length := by
              rw [hlen] at h4
              omega
            have htake4 : ((v.take (v.length - 4)).drop 4).take 4 =
                (v.drop 4).take 4 := by
              rw [htr, List.take_take]
              congr 1
              omega
            have hsplit : ct.bytes ++ ((v.take (v.length - 4)).drop 4).drop 4 =
                (v.take (v.length - 4)).drop 4 := by
              rw [← hbytes, ← htake4]
              exact List.take_append_drop 4 _
            cases h
            refine ⟨?_, rfl⟩
            simp only [hsplit]
            exact hceq.symm
  · intro s c rest h
    simp only [Chunk.read_chunk] at h
    split at h
    · exact absurd h (by simp)
    · next hs4 =>
      split at h
      · exact absurd h (by simp)
      · next hr4 =>
        split at h
        · exact absurd h (by simp)
        · exact absurd h (by simp)
        · next ct hct =>
          split at h
          · exact absurd h (by simp)
          · next hlen =>
            split at h
            · exact absurd h (by simp)
            · next hc4 =>
              split at h
              · exact absurd h (by simp)
              · next hcrc =>
                have hceq := not_not.mp hcrc
                cases h
                refine ⟨by simpa [Chunk.crc_checksum] using hceq, ?_⟩
                simp only [List.length_take]
                omega

/-- C2 witness: the invariant theorem instantiated at a build with tag
"RuSt" and payload `[7]`, at a whole-buffer parse of a 13-byte buffer,
and at a stream read of the serialized empty-payload "RuSt" record. -/
theorem record_checksum_length_invariant_witness :
    ((Chunk.new ctRuSt [7]).crc = crc32 (ctRuSt.bytes ++ [7]) ∧
      (Chunk.new ctRuSt [7]).length = [7].length % 2 ^ 32) ∧
    ((⟨1, ctRuSt, [7], crc32 [82, 117, 83, 116, 7]⟩ : Chunk).crc =
        crc32 ((⟨1, ctRuSt, [7], crc32 [82, 117, 83, 116, 7]⟩ : Chunk).chunk_type.bytes ++
          (⟨1, ctRuSt, [7], crc32 [82, 117, 83, 116, 7]⟩ : Chunk).chunk_data) ∧
      (⟨1, ctRuSt, [7], crc32 [82, 117, 83, 116, 7]⟩ : Chunk).length =
        (⟨1, ctRuSt, [7], crc32 [82, 117, 83, 116, 7]⟩ : Chunk).chunk_data.length % 2 ^ 32) ∧
    ((⟨0, ctRuSt, [], crc32 [82, 117, 83, 116]⟩ : Chunk).crc =
        crc32 ((⟨0, ctRuSt, [], crc32 [82, 117, 83, 116]⟩ : Chunk).chunk_type.bytes ++
          (⟨0, ctRuSt, [], crc32 [82, 117, 83, 116]⟩ : Chunk).chunk_data) ∧
      (⟨0, ctRuSt, [], crc32 [82, 117, 83, 116]⟩ : Chunk).length =
        (⟨0, ctRuSt, [], crc32 [82, 117, 83, 116]⟩ : Chunk).chunk_data.length) :=
  ⟨record_checksum_length_invariant.1 ctRuSt [7],
   record_checksum_length_invariant.2.1 lengthLiesLegalTagBuf
     ⟨1, ctRuSt, [7], crc32 [82, 117, 83, 116, 7]⟩ (by decide),
   record_checksum_length_invariant.2.2 recRuStEmpty
     ⟨0, ctRuSt, [], crc32 [82, 117, 83, 116]⟩ [] (by decide)⟩

lemma take_four_getD (l : List Nat) (h : 4 ≤ l.length) :
    l.take 4 = [l.getD 0 0, l.getD 1 0, l.getD 2 0, l.getD 3 0] := by
  rcases l with _ | ⟨a, _ | ⟨b, _ | ⟨c, _ | ⟨d, t⟩⟩⟩⟩ <;> simp_all [List.getD]

lemma getD_drop_four (v : List Nat) (i : Nat) :
    (v.drop 4).getD i 0 = v.getD (4 + i) 0 := by
  simp [List.getD_eq_getElem?_getD, List.getElem?_drop]

lemma drop_take_four_getD (v : List Nat) (h : 8 ≤ v.length) :
    (v.drop 4).take 4 = [v.getD 4 0, v.getD 5 0, v.getD 6 0, v.getD 7 0] := by
  have h4 : 4 ≤ (v.drop 4).length := by
    simp only [List.length_drop]
    omega
  rw [take_four_getD _ h4, getD_drop_four, getD_drop_four, getD_drop_four,
    getD_drop_four]

/-- C10 counterexample: a 13-byte buffer whose declared length field
(9) disagrees with the framed payload size (1) and whose stored
checksum matches the checksum over tag ++ framed payload, yet parsing
does not succeed — the tag "Ru1t" has a non-letter byte, so
`Chunk::try_from` panics at the `unwrap` before ever reaching the
checksum comparison. -/
theorem declared_length_success_claim_fails :
    12 ≤ lengthLiesBadTagBuf.length ∧
    be32 (lengthLiesBadTagBuf.take 4) ≠
      ((lengthLiesBadTagBuf.take (lengthLiesBadTagBuf.length - 4)).drop 8).length ∧
    crc32 ((lengthLiesBadTagBuf.take (lengthLiesBadTagBuf.length - 4)).drop 4) =
      be32 (lengthLiesBadTagBuf.drop (lengthLiesBadTagBuf.length - 4)) ∧
    Chunk.tryFromBytes lengthLiesBadTagBuf =
      .panicked "called Result-unwrap on an Err value" := by
  refine ⟨by decide, by decide, by decide, by decide⟩

/-- C10 amended: `Chunk::try_from` never uses the declared 4-byte
length field.  For every buffer of at least 12 bytes whose 4 tag bytes
are ASCII letters and whose stored checksum (last 4 bytes, big-endian)
matches the checksum over the bytes between offset 4 and the final 4
bytes, parsing succeeds — whatever the declared length field says —
framing the payload as the bytes between offset 8 and the final 4
bytes, and setting the record's length to buffer length − 12
(`as u32`). -/
theorem tryFromBytes_ignores_declared_length (v : List Nat)
    (h12 : 12 ≤ v.length)
    (htag : ((v.drop 4).take 4).any isBadTagByte = false)
    (hcrc : crc32 ((v.take (v.length - 4)).drop 4) = be32 (v.drop (v.length - 4))) :
    Chunk.tryFromBytes v =
      .ok ⟨(v.length - 12) % 2 ^ 32,
        ⟨v.getD 4 0, v.getD 5 0, v.getD 6 0, v.getD 7 0⟩,
        (v.take (v.length - 4)).drop 8,
        be32 (v.drop (v.length - 4))⟩ := by
  have hvt := drop_take_four_getD v (by omega)
  have h8 : ¬ v.length < 8 := by omega
  have htl : ChunkType.tryFromList ((v.drop 4).take 4) =
      .ok ⟨v.getD 4 0, v.getD 5 0, v.getD 6 0, v.getD 7 0⟩ := by
    rw [hvt] at htag ⊢
    unfold ChunkType.tryFromList
    rw [if_neg (by rw [htag]; exact Bool.false_ne_true)]
  have hlen : ((v.take (v.length - 4)).drop 4).length = v.length - 8 := by
    simp only [List.length_drop, List.length_take]
    omega
  have h4 : ¬ ((v.take (v.length - 4)).drop 4).length < 4 := by
    rw [hlen]
    omega
  have hdd : ((v.take (v.length - 4)).drop 4).drop 4 =
      (v.take (v.length - 4)).drop 8 := by
    rw [List.drop_drop]
  have hddlen : ((v.take (v.length - 4)).drop 8).length = v.length - 12 := by
    simp only [List.length_drop, List.length_take]
    omega
  simp only [Chunk.tryFromBytes, if_neg h8, htl, if_neg (not_not_intro hcrc),
    if_neg h4, hdd, hddlen]

/-- C10 witness: the amended statement at a concrete 13-byte buffer
whose declared length field is the garbage value 0x09090909 while the
framed payload is the single byte 7. -/
theorem tryFromBytes_ignores_declared_length_witness :
    Chunk.tryFromBytes lengthLiesLegalTagBuf =
      .ok ⟨(lengthLiesLegalTagBuf.length - 12) % 2 ^ 32,
        ⟨lengthLiesLegalTagBuf.getD 4 0, lengthLiesLegalTagBuf.getD 5 0,
         lengthLiesLegalTagBuf.getD 6 0, lengthLiesLegalTagBuf.getD 7 0⟩,
        (lengthLiesLegalTagBuf.take (lengthLiesLegalTagBuf.length - 4)).drop 8,
        be32 (lengthLiesLegalTagBuf.drop (lengthLiesLegalTagBuf.length - 4))⟩ :=
  tryFromBytes_ignores_declared_length lengthLiesLegalTagBuf (by decide)
    (by decide) (by decide)
